import Mathlib

/-!
Shallow embedding of the yt-mixer chunk production pipeline, translated from
src/yt_mixer/audio_engine.py (AudioWorker) and src/yt_mixer/routes.py.

Modelling conventions:
* Python float durations are modelled as exact rationals.
* The filesystem is a finite set of path strings: creating a file inserts its
  path, unlinking erases it (Path.unlink with missing_ok and the
  exists-then-unlink idiom both coincide with Finset.erase).
* External effects (yt-dlp playlist resolution and downloads, ffprobe, ffmpeg)
  are oracles passed as explicit parameters; each embedded function consumes
  the outcome that the corresponding external call would have produced.
* Code that runs under the per-session `self.lock` is modelled as an atomic
  state transformation; the process-wide LUFS_LOCK is modelled by an explicit
  transition system (LufsSys / LufsStep) below.
* The bounded error log (`_log_error`: append, then keep the last 10) is kept
  as a list of message strings; `log.info` / `log.warning` lines that the
  claims observe are kept in a separate `syslog` list.  UI-only progress
  records (`mix_progress`) are not observed by any claim and are elided.
-/

/-- Quality tier of a chunk: the Python code uses the strings
'none', 'immediate', 'quick', 'final'. -/
inductive Quality
  | qNone
  | immediate
  | quick
  | final
deriving DecidableEq, Repr

/-- Numeric rank of a tier under the order immediate < quick < final. -/
def Quality.rank : Quality → Nat
  | .qNone => 0
  | .immediate => 1
  | .quick => 2
  | .final => 3

/-- One observed tier step: either stay, or move up by exactly one rank
(no regression, no skipping). -/
def stepUp (a b : Quality) : Prop :=
  a = b ∨ Quality.rank b = Quality.rank a + 1

instance (a b : Quality) : Decidable (stepUp a b) :=
  inferInstanceAs (Decidable (a = b ∨ Quality.rank b = Quality.rank a + 1))

/-- Entry of `preloaded_chunks`: the dict {'path': .., 'quality': .., 'index': ..}. -/
structure ChunkInfo where
  path : String
  quality : Quality
  index : Nat
deriving DecidableEq, Repr

/-- Mutable state of an AudioWorker (audio_engine.py, __init__). -/
structure WorkerState where
  music_queue : List String
  speech_queue : List String
  preloaded_chunks : List ChunkInfo
  chunk_index : Nat
  current_chunk_path : Option String
  current_chunk_quality : Quality
  lufs_in_progress : Finset Nat
  error_log : List String
  syslog : List String
  files : Finset String

/-- Embedding of `_log_error`'s store step: append the message, keep the most
recent 10 entries (`self.error_log = self.error_log[-10:]`). -/
def pushError (logList : List String) (msg : String) : List String :=
  let l := logList ++ [msg]
  l.drop (l.length - 10)

/-! ### Track queue layer (get_video_ids, _ensure_queue_filled) -/

/-- Embedding of `get_video_ids` (audio_engine.py lines 73-99).
`info` is the yt-dlp extraction result: `none` models both the
`if not info: return []` branch and the exception handler (which logs and
returns []); `some entries` carries the `entries` list, where an element is
`some vid` when the entry is truthy and has an 'id' field.  `playlistend`
limits the extraction to `max_fetch` entries, modelled by `List.take`.
The ids are shuffled (`random.shuffle`) before being returned; the shuffle
is an oracle parameter constrained to be a permutation in the theorems. -/
def get_video_ids (info : Option (List (Option String)))
    (shuffle : List String → List String) (max_fetch : Nat) : List String :=
  match info with
  | none => []
  | some entries => shuffle ((entries.take max_fetch).filterMap (fun e => e))

/-- Embedding of `_ensure_queue_filled` (audio_engine.py lines 135-144).
`fetch_result` is what `get_video_ids` would return if queried.  Returns the
new queue and whether the track source was actually queried (the code calls
`get_video_ids` only inside the `len(queue) < 10` branch; the
`if new_ids: queue.extend(new_ids)` guard makes an empty result a no-op). -/
def ensure_queue_filled (queue : List String) (fetch_result : List String) :
    List String × Bool :=
  if queue.length < 10 then
    (if fetch_result = [] then queue else queue ++ fetch_result, true)
  else (queue, false)

/-- Error vocabulary for queue pops (spec taxonomy; the code logs
"... queue empty" and abandons the pop). -/
inductive QueueError
  | QueueExhausted
deriving DecidableEq, Repr

/-- Embedding of the pop step of `_collect_tracks_for_chunk`
(audio_engine.py lines 152-158): under the session lock, refill, then either
fail because the queue is still empty, or remove and return the head
(`queue.pop(0)`). -/
def pop_next (queue : List String) (fetch_result : List String) :
    Except QueueError (String × List String) :=
  match (ensure_queue_filled queue fetch_result).1 with
  | [] => .error .QueueExhausted
  | v :: rest => .ok (v, rest)

/-! ### Duration-bounded collection (_collect_tracks_for_chunk) -/

/-- External oracles used while collecting: `download_ok` is the result of
`_download_audio` and `duration` the result of `_get_audio_duration`
(ffprobe; floats modelled as exact rationals). -/
structure CollectEnv where
  download_ok : String → Bool
  duration : String → ℚ

/-- One refill as seen by the collection loop: `batches` is the stream of
successive `get_video_ids` results (each already shuffled); a batch is
consumed exactly when the source is queried (queue length < 10). -/
def refillStep (queue : List String) (batches : List (List String)) :
    List String × List (List String) :=
  match batches with
  | [] => ((ensure_queue_filled queue []).1, [])
  | b :: rest =>
      let r := ensure_queue_filled queue b
      (r.1, if r.2 then rest else b :: rest)

/-- Result of `_collect_tracks_for_chunk`: collected track paths (identified
here by their video ids), accumulated duration, and the queue and batch
stream left behind; `queueEmptyLogged` records whether the
"queue empty" error was logged (the break on an empty refilled queue). -/
structure CollectOut where
  collected : List String
  total : ℚ
  queue : List String
  batches : List (List String)
  queueEmptyLogged : Bool
deriving DecidableEq, Repr

/-- Embedding of the while-loop of `_collect_tracks_for_chunk`
(audio_engine.py lines 146-178).  Iteration order is exactly the source's:
1. loop while `total_duration < target_duration`;
2. under the lock: refill, break with a logged error if the queue is empty,
   otherwise pop the head;
3. if `total_duration > target_duration * 0.9`, reinsert the popped id at the
   head of the queue and break (early stop);
4. if the download fails, continue;
5. if the probed duration exceeds 5 seconds, keep the track and add its
   duration.
`fuel` bounds the recursion (the Python loop is unbounded); every theorem
either supplies enough fuel or concerns a single iteration. -/
def collectLoop (env : CollectEnv) (target : ℚ) :
    Nat → List String → List (List String) → List String → ℚ → CollectOut
  | 0, queue, batches, acc, total =>
      ⟨acc, total, queue, batches, false⟩
  | fuel + 1, queue, batches, acc, total =>
      if total < target then
        let r := refillStep queue batches
        match r.1 with
        | [] => ⟨acc, total, [], r.2, true⟩
        | vid :: rest =>
            if target * (9 / 10) < total then
              ⟨acc, total, vid :: rest, r.2, false⟩
            else if env.download_ok vid = false then
              collectLoop env target fuel rest r.2 acc total
            else if 5 < env.duration vid then
              collectLoop env target fuel rest r.2 (acc ++ [vid]) (total + env.duration vid)
            else
              collectLoop env target fuel rest r.2 acc total
      else ⟨acc, total, queue, batches, false⟩

/-! ### Mix tiers and the upgrade pipeline -/

/-- Chunk file names used by the three tiers and the temporary beds
(audio_engine.py lines 222, 267, 323, 476-477). -/
def immediate_path_name (index : Nat) : String := toString index ++ "_immediate.mp3"

def quick_path_name (index : Nat) : String := toString index ++ "_quick.mp3"

def final_path_name (index : Nat) : String := toString index ++ ".mp3"

def m_tmp_name (index : Nat) : String := "m_tmp_" ++ toString index ++ ".mp3"

def s_tmp_name (index : Nat) : String := "s_tmp_" ++ toString index ++ ".mp3"

/-- Embedding of `_prepare_quick_mix` (audio_engine.py lines 263-307):
on ffmpeg success the quick file exists and its path is returned; on failure
or timeout the error is logged and None is returned. -/
def prepare_quick_mix (st : WorkerState) (index : Nat) (ok : Bool) :
    WorkerState × Option String :=
  if ok then
    ({ st with files := insert (quick_path_name index) st.files },
     some (quick_path_name index))
  else
    ({ st with error_log := pushError st.error_log "Quick mix failed" }, none)

/-- Outcome of the monitored ffmpeg run inside `_prepare_final_mix`:
the process exits with code 0, exits with a non-zero code, or the
surrounding try-block raises. -/
inductive FfmpegOutcome
  | success
  | failExit
  | exn
deriving DecidableEq, Repr

/-- Embedding of `_prepare_final_mix` (audio_engine.py lines 309-415), the
body that runs while holding LUFS_LOCK (the lock itself is modelled by
`LufsStep` below).  Faithful control flow:
* line 318-319: add `index` to `lufs_in_progress` under the session lock;
* success path (returncode 0): the final file exists, the index is discarded
  (lines 406-407), the path is returned;
* non-zero returncode (lines 395-399): log the error and `return None` —
  note the source does NOT discard the index on this path;
* exception path (lines 411-415): log, discard the index, return None. -/
def prepare_final_mix (st : WorkerState) (index : Nat) (outcome : FfmpegOutcome) :
    WorkerState × Option String :=
  let st0 := { st with lufs_in_progress := insert index st.lufs_in_progress }
  match outcome with
  | .success =>
      ({ st0 with
          files := insert (final_path_name index) st0.files,
          lufs_in_progress := st0.lufs_in_progress.erase index },
       some (final_path_name index))
  | .failExit =>
      ({ st0 with error_log := pushError st0.error_log "FINAL mix failed" }, none)
  | .exn =>
      ({ st0 with
          error_log := pushError st0.error_log "FINAL mix error",
          lufs_in_progress := st0.lufs_in_progress.erase index },
       none)

/-- The `for i, chunk_info in enumerate(...): if ...: replace; break` idiom of
`upgrade_pipeline` (audio_engine.py lines 512-519 and 542-549): replace the
first buffer entry whose path matches, leave the rest unchanged. -/
def replaceFirst (l : List ChunkInfo) (oldPath : String) (c : ChunkInfo) :
    List ChunkInfo :=
  match l with
  | [] => []
  | x :: xs => if x.path = oldPath then c :: xs else x :: replaceFirst xs oldPath c

/-- The replace-and-delete-previous protocol used for both tier upgrades
(audio_engine.py lines 505-522 for immediate→quick, 535-551 for quick→final):
under the session lock, if the current chunk still references the superseded
file, swap it to the new file and quality; replace the matching lookahead
buffer entry; then unlink the superseded file. -/
def applySwap (st : WorkerState) (oldPath newPath : String) (q : Quality)
    (index : Nat) : WorkerState :=
  let st1 :=
    if st.current_chunk_path = some oldPath then
      { st with current_chunk_path := some newPath, current_chunk_quality := q }
    else st
  let st2 :=
    { st1 with preloaded_chunks := replaceFirst st1.preloaded_chunks oldPath ⟨newPath, q, index⟩ }
  { st2 with files := st2.files.erase oldPath }

/-- Unconditional cleanup of the temporary beds and track files
(audio_engine.py lines 554-558). -/
def cleanupTemps (st : WorkerState) (temps : List String) : WorkerState :=
  { st with files := temps.foldl (fun s t => s.erase t) st.files }

/-- The `log.warning` capacity-skip message (audio_engine.py line 530). -/
def capacitySkipMsg (index : Nat) (count : Nat) : String :=
  "Skipping FINAL mix for chunk " ++ toString index ++ " - " ++ toString count
    ++ " LUFS already in progress"

/-- The `log.info` line announcing a final-mix attempt
(audio_engine.py line 532). -/
def startFinalMsg (index : Nat) : String :=
  "Starting FINAL mix for chunk " ++ toString index

/-- Embedding of the detached `upgrade_pipeline` closure
(audio_engine.py lines 498-560).  `quickOk` is the quick-mix ffmpeg outcome,
`finalOutcome` the final-mix outcome (consulted only if a final mix is
attempted), `temps` the temporary bed and track files to clean up.
Control flow follows the source exactly:
* quick mix; if it failed, skip straight to cleanup;
* on quick success, replace-and-delete immediate→quick under the lock;
* read `len(self.lufs_in_progress)` under the lock; if ≥ 2, log the
  capacity skip (a warning, not an error-log entry) and do not attempt the
  final tier;
* otherwise run `_prepare_final_mix`; on success replace-and-delete
  quick→final, on failure leave the chunk at quick;
* finally unlink the temporary beds and track files on every path.
Returns the new state and whether the final mix was attempted. -/
def upgrade_pipeline (st : WorkerState) (index : Nat) (quickOk : Bool)
    (finalOutcome : FfmpegOutcome) (temps : List String) : WorkerState × Bool :=
  match prepare_quick_mix st index quickOk with
  | (st1, none) => (cleanupTemps st1 temps, false)
  | (st1, some qp) =>
      let stQ := applySwap st1 (immediate_path_name index) qp .quick index
      let c := stQ.lufs_in_progress.card
      if 2 ≤ c then
        (cleanupTemps { stQ with syslog := stQ.syslog ++ [capacitySkipMsg index c] } temps,
         false)
      else
        let stS := { stQ with syslog := stQ.syslog ++ [startFinalMsg index] }
        match prepare_final_mix stS index finalOutcome with
        | (stF, none) => (cleanupTemps stF temps, true)
        | (stF, some fp) =>
            (cleanupTemps (applySwap stF qp fp .final index) temps, true)

/-- The quality tier of chunk data reachable through the live path `live`:
the current slot if it references `live`, otherwise the first lookahead
buffer entry referencing `live` (this is exactly what `get_status` and the
streaming boundary can observe under the session lock). -/
def obsQ (st : WorkerState) (live : String) : Quality :=
  if st.current_chunk_path = some live then st.current_chunk_quality
  else
    match st.preloaded_chunks.find? (fun c => c.path = live) with
    | some c => c.quality
    | none => .qNone

/-- The sequence of tiers observable for chunk `index` at the three
observation points of one `upgrade_pipeline` run: just after `prepare_chunk`
returned the immediate descriptor, just after the quick step, and just after
the final step.  Built from the same embedded steps as `upgrade_pipeline`
(the syslog lines and temp-file cleanup do not affect `obsQ`). -/
def qualityTrace (st : WorkerState) (index : Nat) (quickOk : Bool)
    (finalOutcome : FfmpegOutcome) : List Quality :=
  let ip := immediate_path_name index
  let obs0 := obsQ st ip
  match prepare_quick_mix st index quickOk with
  | (st1, none) => [obs0, obsQ st1 ip, obsQ st1 ip]
  | (st1, some qp) =>
      let stQ := applySwap st1 ip qp .quick index
      let obs1 := obsQ stQ qp
      if 2 ≤ stQ.lufs_in_progress.card then [obs0, obs1, obs1]
      else
        match prepare_final_mix stQ index finalOutcome with
        | (stF, none) => [obs0, obs1, obsQ stF qp]
        | (stF, some fp) => [obs0, obs1, obsQ (applySwap stF qp fp .final index) fp]

/-! ### prepare_chunk (the synchronous part, lines 437-571) -/

/-- Outcome of the two concurrent collection threads (collect_music /
collect_speech, audio_engine.py lines 448-469): the collected track paths
and whether the thread recorded an exception in m_error / s_error. -/
structure CollectPhase where
  m_tracks : List String
  s_tracks : List String
  m_error : Bool
  s_error : Bool
deriving DecidableEq, Repr

/-- Embedding of the synchronous body of `prepare_chunk`
(audio_engine.py lines 437-571), with the collection outcome and the
concat / immediate-mix ffmpeg outcomes as oracle parameters.  Faithful
control flow:
* lines 471-473: if either collection errored or yielded no tracks, log
  "Failed to collect tracks" and return None — note the source deletes no
  files on this path;
* lines 480-482: concatenate the music bed then the speech bed
  (short-circuit: the speech concat does not run if the music concat fails);
  a failed concat logs and returns None, again deleting no track files;
* lines 485-493: run the immediate mix; on failure log twice (inside
  `_prepare_immediate_mix` and in `prepare_chunk`), unlink both temporary
  beds and every collected track file, and return None;
* on success return the immediate-quality chunk descriptor (the detached
  upgrade task is modelled separately by `upgrade_pipeline`). -/
def prepare_chunk (st : WorkerState) (index : Nat) (cp : CollectPhase)
    (m_concat_ok s_concat_ok immediate_ok : Bool) :
    WorkerState × Option ChunkInfo :=
  if cp.m_error || cp.s_error || cp.m_tracks.isEmpty || cp.s_tracks.isEmpty then
    ({ st with
        error_log := pushError st.error_log
          ("Failed to collect tracks for chunk " ++ toString index) },
     none)
  else if m_concat_ok = false then
    ({ st with error_log := pushError st.error_log "Concat failed" }, none)
  else
    let st1 := { st with files := insert (m_tmp_name index) st.files }
    if s_concat_ok = false then
      ({ st1 with error_log := pushError st1.error_log "Concat failed" }, none)
    else
      let st2 := { st1 with files := insert (s_tmp_name index) st1.files }
      if immediate_ok = false then
        let st3 :=
          { st2 with
              error_log := pushError
                (pushError st2.error_log "Immediate mix failed")
                ("Immediate mix failed for chunk " ++ toString index) }
        ({ st3 with
            files := (cp.m_tracks ++ cp.s_tracks).foldl (fun s t => s.erase t)
              ((st3.files.erase (m_tmp_name index)).erase (s_tmp_name index)) },
         none)
      else
        ({ st2 with files := insert (immediate_path_name index) st2.files },
         some ⟨immediate_path_name index, .immediate, index⟩)

/-! ### The /next promotion (routes.py next_chunk, lines 241-280) -/

/-- Result of the `/next` route. -/
inductive NextOutcome
  | advanced (index : Nat) (quality : Quality)
  | noChunkAvailable
deriving DecidableEq, Repr

/-- Embedding of `next_chunk` (routes.py lines 241-280), the whole body
running under the worker lock.  Faithful order of operations:
1. lines 252-258: if a current chunk path is set and the file exists,
   unlink it (this happens BEFORE the buffer is inspected);
2. lines 261-274: if the lookahead buffer is non-empty, pop its head into
   the current slot and increment `chunk_index`;
3. lines 275-280: otherwise report that no preloaded chunk is available
   (HTTP 503). -/
def next_chunk (st : WorkerState) : WorkerState × NextOutcome :=
  let st0 :=
    match st.current_chunk_path with
    | some p => { st with files := st.files.erase p }
    | none => st
  match st0.preloaded_chunks with
  | [] => (st0, .noChunkAvailable)
  | c :: rest =>
      ({ st0 with
          preloaded_chunks := rest,
          current_chunk_path := some c.path,
          current_chunk_quality := c.quality,
          chunk_index := st0.chunk_index + 1 },
       .advanced (st0.chunk_index + 1) c.quality)

/-! ### The process-wide LUFS lock (audio_engine.py lines 15-16, 315) -/

/-- Phase of one upgrade task with respect to the mix tiers.  `mixingFinal`
is the phase spent inside `with LUFS_LOCK:` in `_prepare_final_mix`. -/
inductive TaskPhase
  | idle
  | mixingImmediate
  | mixingQuick
  | waitingLufs
  | mixingFinal
  | finished
deriving DecidableEq, Repr

/-- Process-wide view: one task per worker/chunk pipeline, any number of
them (`n` is arbitrary — sessions × chunks). -/
structure LufsSys (n : Nat) where
  tasks : Fin n → TaskPhase

/-- Initially no pipeline has started. -/
def initSys (n : Nat) : LufsSys n := ⟨fun _ => .idle⟩

/-- Small-step semantics of the pipelines against LUFS_LOCK
(threading.Lock at audio_engine.py line 16).  The immediate and quick
tiers never touch the lock, so their steps have no premise about other
tasks; `acquireLufs` is the blocking `with LUFS_LOCK:` entry and is enabled
exactly when no task holds the lock (a `threading.Lock` acquisition cannot
fail or time out); `releaseLufs` is the `with`-block exit. -/
inductive LufsStep : {n : Nat} → LufsSys n → LufsSys n → Prop
  | startImmediate {n} (s : LufsSys n) (i : Fin n) :
      s.tasks i = .idle →
      LufsStep s ⟨Function.update s.tasks i .mixingImmediate⟩
  | startQuick {n} (s : LufsSys n) (i : Fin n) :
      s.tasks i = .mixingImmediate →
      LufsStep s ⟨Function.update s.tasks i .mixingQuick⟩
  | requestFinal {n} (s : LufsSys n) (i : Fin n) :
      s.tasks i = .mixingQuick →
      LufsStep s ⟨Function.update s.tasks i .waitingLufs⟩
  | skipFinal {n} (s : LufsSys n) (i : Fin n) :
      s.tasks i = .mixingQuick →
      LufsStep s ⟨Function.update s.tasks i .finished⟩
  | acquireLufs {n} (s : LufsSys n) (i : Fin n) :
      s.tasks i = .waitingLufs →
      (∀ j, s.tasks j ≠ .mixingFinal) →
      LufsStep s ⟨Function.update s.tasks i .mixingFinal⟩
  | releaseLufs {n} (s : LufsSys n) (i : Fin n) :
      s.tasks i = .mixingFinal →
      LufsStep s ⟨Function.update s.tasks i .finished⟩

/-- States reachable from the initial one. -/
def Reachable {n : Nat} (s : LufsSys n) : Prop :=
  Relation.ReflTransGen LufsStep (initSys n) s

/-! ### Concrete worker states used to evaluate the embedded operations -/

/-- A freshly initialized worker (audio_engine.py __init__ state). -/
def emptyWorker : WorkerState :=
  { music_queue := [], speech_queue := [], preloaded_chunks := [],
    chunk_index := 0, current_chunk_path := none,
    current_chunk_quality := .qNone, lufs_in_progress := ∅,
    error_log := [], syslog := [], files := ∅ }

/-- A worker streaming chunk 1 at quick quality with an empty lookahead
buffer, the quick file being on disk. -/
def c3State : WorkerState :=
  { emptyWorker with
      chunk_index := 1,
      current_chunk_path := some "1_quick.mp3",
      current_chunk_quality := .quick,
      files := {"1_quick.mp3"} }

/-- A worker whose music collection produced one downloaded track file while
speech collection produced none. -/
def c7State : WorkerState := { emptyWorker with files := {"music_a.mp3"} }

/-- A worker streaming chunk 1 at immediate quality while two final mixes
are booked as in flight. -/
def c6State : WorkerState :=
  { emptyWorker with
      current_chunk_path := some (immediate_path_name 1),
      current_chunk_quality := .immediate,
      lufs_in_progress := {7, 8},
      files := {immediate_path_name 1} }

/-- State of the worker after a successful quick mix created the quick file
(audio_engine.py line 303), before the swap. -/
def postQuickFiles (st : WorkerState) (index : Nat) : WorkerState :=
  { st with files := insert (quick_path_name index) st.files }

/-- State of the worker after the immediate-to-quick replace-and-delete
swap of `upgrade_pipeline`. -/
def stateAfterQuickSwap (st : WorkerState) (index : Nat) : WorkerState :=
  applySwap (postQuickFiles st index) (immediate_path_name index)
    (quick_path_name index) .quick index

/-- A worker streaming chunk 1 at immediate quality with no final mix
in flight. -/
def c1State : WorkerState :=
  { emptyWorker with
      current_chunk_path := some (immediate_path_name 1),
      current_chunk_quality := .immediate,
      files := {immediate_path_name 1} }

/-! ### Helper lemmas -/

theorem ensure_queue_filled_nil_fst (queue : List String) :
    (ensure_queue_filled queue []).1 = queue := by
  unfold ensure_queue_filled
  split <;> simp

theorem refillStep_nil (queue : List String) :
    refillStep queue [] = (queue, []) := by
  simp [refillStep, ensure_queue_filled_nil_fst]

/-- One successful collection iteration (download succeeds, duration above
the 5-second floor, early-stop threshold not yet reached, no pending
refill batches). -/
theorem collectLoop_step (env : CollectEnv) (target : ℚ) (fuel : Nat)
    (v : String) (rest acc : List String) (total : ℚ)
    (h1 : total < target) (h2 : ¬ target * (9 / 10) < total)
    (h3 : env.download_ok v = true) (h4 : 5 < env.duration v) :
    collectLoop env target (fuel + 1) (v :: rest) [] acc total =
      collectLoop env target fuel rest [] (acc ++ [v]) (total + env.duration v) := by
  simp only [collectLoop, refillStep_nil, if_pos h1, if_neg h2, h3, if_pos h4]
  simp

/-- The loop exits as soon as the accumulated total reaches the target. -/
theorem collectLoop_done (env : CollectEnv) (target : ℚ) (fuel : Nat)
    (queue : List String) (batches : List (List String))
    (acc : List String) (total : ℚ) (h : ¬ total < target) :
    collectLoop env target fuel queue batches acc total =
      ⟨acc, total, queue, batches, false⟩ := by
  cases fuel <;> simp [collectLoop, if_neg h]

/-! ### C8 -/

/-- C8: popping the next item first performs a refill (under the session
lock, modelled as one atomic step); if the queue is still empty after the
refill, the pop fails with the QueueExhausted error value (not a crash),
and for any queue left non-empty by the refill, the pop removes and
returns the head item. -/
theorem c8_pop_next_refill_then_head (queue fetch_result : List String) :
    ((ensure_queue_filled queue fetch_result).1 = [] →
      pop_next queue fetch_result = .error .QueueExhausted)
    ∧ (∀ v rest, (ensure_queue_filled queue fetch_result).1 = v :: rest →
      pop_next queue fetch_result = .ok (v, rest)) := by
  constructor
  · intro h
    simp [pop_next, h]
  · intro v rest h
    simp [pop_next, h]

theorem c8_pop_next_refill_then_head_witness :
    (ensure_queue_filled ["a"] []).1 = "a" :: [] ∧
    pop_next ["a"] [] = .ok ("a", []) :=
  ⟨rfl, (c8_pop_next_refill_then_head ["a"] []).2 "a" [] rfl⟩

/-! ### C9 -/

/-- C9: for every call to refill: if the queue's current length is below 10,
up to 50 new identifiers are requested from the track source, shuffled, and
appended (existing queued items keep their positions and order); if the
length is 10 or more nothing is fetched; and if the source returns an empty
result the queue is left unchanged and no error is raised (the embedded
functions are total and touch no error state). -/
theorem c9_refill_semantics (queue : List String)
    (info : Option (List (Option String)))
    (shuffle : List String → List String)
    (hs : ∀ l, (shuffle l).Perm l) :
    (queue.length < 10 →
      ensure_queue_filled queue (get_video_ids info shuffle 50) =
        (queue ++ get_video_ids info shuffle 50, true)
      ∧ (get_video_ids info shuffle 50).length ≤ 50
      ∧ (∀ entries, info = some entries →
          (get_video_ids info shuffle 50).Perm
            ((entries.take 50).filterMap (fun e => e))))
    ∧ (10 ≤ queue.length →
      ensure_queue_filled queue (get_video_ids info shuffle 50) = (queue, false))
    ∧ (get_video_ids info shuffle 50 = [] →
      (ensure_queue_filled queue (get_video_ids info shuffle 50)).1 = queue) := by
  refine ⟨fun hlen => ⟨?_, ?_, ?_⟩, fun hlen => ?_, fun hempty => ?_⟩
  · unfold ensure_queue_filled
    rw [if_pos hlen]
    by_cases he : get_video_ids info shuffle 50 = []
    · rw [if_pos he, he, List.append_nil]
    · rw [if_neg he]
  · cases info with
    | none => simp [get_video_ids]
    | some entries =>
        have hperm := hs ((entries.take 50).filterMap (fun e => e))
        have hlen2 := hperm.length_eq
        calc (get_video_ids (some entries) shuffle 50).length
            = ((entries.take 50).filterMap (fun e => e)).length := hlen2
          _ ≤ (entries.take 50).length := List.length_filterMap_le _ _
          _ ≤ 50 := List.length_take_le _ _
  · intro entries hinfo
    subst hinfo
    exact hs _
  · unfold ensure_queue_filled
    rw [if_neg (by omega)]
  · simp only [ensure_queue_filled, hempty]
    split <;> simp

theorem c9_refill_semantics_witness :
    (["a"].length < 10 ∧
      ensure_queue_filled ["a"]
          (get_video_ids (some [some "x", none, some "y"]) (fun l => l) 50) =
        (["a"] ++ get_video_ids (some [some "x", none, some "y"]) (fun l => l) 50,
         true)) :=
  ⟨by decide,
   ((c9_refill_semantics ["a"] (some [some "x", none, some "y"]) (fun l => l)
      (fun l => List.Perm.refl l)).1 (by decide)).1⟩

/-! ### C10 -/

/-- C10: with target duration 3600 s and a track source yielding successive
items of fetched duration 1200 s each, collecting tracks for one type
returns exactly three tracks totalling 3600 s and consumes no further items
from the queue beyond those three (the remaining queue and batch stream are
untouched and no queue-empty error is logged). -/
theorem c10_three_twenty_minute_tracks :
    collectLoop ⟨fun _ => true, fun _ => (1200 : ℚ)⟩ 3600 4
        ["t1", "t2", "t3", "t4", "t5", "t6", "t7", "t8", "t9", "t10", "t11", "t12"]
        [] [] 0 =
      ⟨["t1", "t2", "t3"], 3600,
        ["t4", "t5", "t6", "t7", "t8", "t9", "t10", "t11", "t12"], [], false⟩ := by
  have e1 := collectLoop_step ⟨fun _ => true, fun _ => (1200 : ℚ)⟩ 3600 3 "t1"
    ["t2", "t3", "t4", "t5", "t6", "t7", "t8", "t9", "t10", "t11", "t12"] [] 0
    (by norm_num) (by norm_num) rfl (by norm_num)
  have e2 := collectLoop_step ⟨fun _ => true, fun _ => (1200 : ℚ)⟩ 3600 2 "t2"
    ["t3", "t4", "t5", "t6", "t7", "t8", "t9", "t10", "t11", "t12"] ["t1"] 1200
    (by norm_num) (by norm_num) rfl (by norm_num)
  have e3 := collectLoop_step ⟨fun _ => true, fun _ => (1200 : ℚ)⟩ 3600 1 "t3"
    ["t4", "t5", "t6", "t7", "t8", "t9", "t10", "t11", "t12"] ["t1", "t2"] 2400
    (by norm_num) (by norm_num) rfl (by norm_num)
  have e4 := collectLoop_done ⟨fun _ => true, fun _ => (1200 : ℚ)⟩ 3600 1
    ["t4", "t5", "t6", "t7", "t8", "t9", "t10", "t11", "t12"] [] ["t1", "t2", "t3"] 3600
    (by norm_num)
  norm_num at e1 e2 e3
  rw [e1, e2, e3, e4]

/-! ### C4 -/

/-- C4: whenever the accumulated duration exceeds 90 percent of the target
while the loop is still collecting (total below target) and the refilled
queue is non-empty, collection stops early: the popped head is reinserted at
the front (the resulting queue is exactly the post-refill queue, so the
final iteration consumes nothing), nothing is downloaded or counted (the
result does not depend on the download/duration oracles), and the tracks
gathered so far are returned.  Once the total reaches the target the loop
exits without touching the queue at all. -/
theorem c4_early_stop_requeues_head (env : CollectEnv) (target total : ℚ)
    (fuel : Nat) (queue acc : List String) (batches : List (List String))
    (h90 : target * (9 / 10) < total) :
    (∀ v rest, total < target → (refillStep queue batches).1 = v :: rest →
        collectLoop env target (fuel + 1) queue batches acc total =
          ⟨acc, total, v :: rest, (refillStep queue batches).2, false⟩)
    ∧ (¬ total < target →
        collectLoop env target (fuel + 1) queue batches acc total =
          ⟨acc, total, queue, batches, false⟩) := by
  constructor
  · intro v rest hlt hq
    simp only [collectLoop, if_pos hlt]
    rw [hq]
    simp [if_pos h90]
  · intro h
    exact collectLoop_done env target (fuel + 1) queue batches acc total h

theorem c4_early_stop_requeues_head_witness :
    (100 : ℚ) * (9 / 10) < 92 ∧ (92 : ℚ) < 100 ∧
    collectLoop ⟨fun _ => true, fun _ => 0⟩ 100 1
        ["q1", "q2", "q3", "q4", "q5", "q6", "q7", "q8", "q9", "q10"] [] [] 92 =
      ⟨[], 92, "q1" :: ["q2", "q3", "q4", "q5", "q6", "q7", "q8", "q9", "q10"],
        (refillStep ["q1", "q2", "q3", "q4", "q5", "q6", "q7", "q8", "q9", "q10"] []).2,
        false⟩ :=
  ⟨by norm_num, by norm_num,
   (c4_early_stop_requeues_head ⟨fun _ => true, fun _ => 0⟩ 100 92 0
      ["q1", "q2", "q3", "q4", "q5", "q6", "q7", "q8", "q9", "q10"] [] []
      (by norm_num)).1 "q1" ["q2", "q3", "q4", "q5", "q6", "q7", "q8", "q9", "q10"]
      (by norm_num) rfl⟩

/-! ### C3 -/

/-- C3 counterexample: calling advance (/next) on a worker with an empty
lookahead buffer does fail with NoChunkAvailable, but the existence of the
current chunk's underlying file on disk is NOT the same as before the call:
routes.py deletes the outgoing current chunk's file (lines 252-258) before
inspecting the buffer (line 261), so the file is gone even though the
promotion failed. -/
theorem c3_advance_empty_deletes_current_file :
    (next_chunk c3State).2 = .noChunkAvailable
    ∧ "1_quick.mp3" ∈ c3State.files
    ∧ "1_quick.mp3" ∉ (next_chunk c3State).1.files := by
  decide

/-- C3 amended: advance on a worker with an empty lookahead buffer fails
with NoChunkAvailable and leaves the current chunk's file reference,
quality, and chunk index unchanged, but the current chunk's underlying file
(if any) is deleted from disk, because the cleanup of the outgoing chunk
runs before the empty-buffer check. -/
theorem c3_advance_empty_amended (st : WorkerState)
    (h : st.preloaded_chunks = []) :
    (next_chunk st).2 = .noChunkAvailable
    ∧ (next_chunk st).1.current_chunk_path = st.current_chunk_path
    ∧ (next_chunk st).1.current_chunk_quality = st.current_chunk_quality
    ∧ (next_chunk st).1.chunk_index = st.chunk_index
    ∧ (next_chunk st).1.preloaded_chunks = []
    ∧ (next_chunk st).1.files =
        (match st.current_chunk_path with
         | some p => st.files.erase p
         | none => st.files) := by
  unfold next_chunk
  cases hc : st.current_chunk_path <;> simp [h, hc]

theorem c3_advance_empty_amended_witness :
    c3State.preloaded_chunks = [] ∧
    ((next_chunk c3State).2 = .noChunkAvailable
      ∧ (next_chunk c3State).1.current_chunk_path = c3State.current_chunk_path
      ∧ (next_chunk c3State).1.current_chunk_quality = c3State.current_chunk_quality
      ∧ (next_chunk c3State).1.chunk_index = c3State.chunk_index
      ∧ (next_chunk c3State).1.preloaded_chunks = []
      ∧ (next_chunk c3State).1.files =
          (match c3State.current_chunk_path with
           | some p => c3State.files.erase p
           | none => c3State.files)) :=
  ⟨rfl, c3_advance_empty_amended c3State rfl⟩

/-! ### C5 -/

/-- C5: the code violates the claimed invariant.  Failing input: a run of
_prepare_final_mix for chunk index 3 in which the ffmpeg process exits with
a non-zero return code.  The function returns None with index 3 still in
lufs_in_progress (the discard at lines 406-407 and 413-414 is skipped by
the early return at line 399), while the success and exception paths do
remove it.  Consequently the in-flight count CAN grow permanently: after
two such failures the count is 2 forever and a later chunk's final tier is
skipped by the soft cap even though no final mix is executing. -/
theorem c5_lufs_in_progress_leak :
    ((prepare_final_mix emptyWorker 3 .failExit).2 = none
      ∧ 3 ∈ (prepare_final_mix emptyWorker 3 .failExit).1.lufs_in_progress)
    ∧ 3 ∉ (prepare_final_mix emptyWorker 3 .success).1.lufs_in_progress
    ∧ 3 ∉ (prepare_final_mix emptyWorker 3 .exn).1.lufs_in_progress
    ∧ (upgrade_pipeline
        (prepare_final_mix (prepare_final_mix emptyWorker 3 .failExit).1 5 .failExit).1
        4 true .success []).2 = false := by
  decide

/-! ### C7 -/

/-- C7 counterexample: when assembly fails because the speech collection
yields zero tracks, prepare_chunk does return None, but the partially
downloaded music track file is NOT removed from disk: the early return at
audio_engine.py lines 471-473 deletes nothing. -/
theorem c7_collection_failure_leaves_tracks_on_disk :
    (prepare_chunk c7State 1 ⟨["music_a.mp3"], [], false, false⟩ true true true).2 = none
    ∧ "music_a.mp3" ∈
        (prepare_chunk c7State 1 ⟨["music_a.mp3"], [], false, false⟩ true true true).1.files := by
  decide

/-- C7 amended: when either collection yields zero tracks or records an
internal error, prepare_chunk logs the failure and returns None, but the
partially downloaded track files are NOT removed from disk (the on-disk
file set is unchanged); track-file cleanup happens only on the
immediate-mix failure path and at the end of the upgrade pipeline. -/
theorem c7_collection_failure_amended (st : WorkerState) (index : Nat)
    (cp : CollectPhase) (a b c : Bool)
    (h : cp.m_error = true ∨ cp.s_error = true ∨ cp.m_tracks = [] ∨ cp.s_tracks = []) :
    (prepare_chunk st index cp a b c).2 = none
    ∧ (prepare_chunk st index cp a b c).1.files = st.files
    ∧ (prepare_chunk st index cp a b c).1.error_log =
        pushError st.error_log ("Failed to collect tracks for chunk " ++ toString index) := by
  have hcond : (cp.m_error || cp.s_error || cp.m_tracks.isEmpty || cp.s_tracks.isEmpty) = true := by
    rcases h with h | h | h | h <;> simp [h]
  simp [prepare_chunk, hcond]

theorem c7_collection_failure_amended_witness :
    ((⟨["music_a.mp3"], [], false, false⟩ : CollectPhase).s_tracks = []) ∧
    ((prepare_chunk c7State 2 ⟨["music_a.mp3"], [], false, false⟩ true true true).2 = none
      ∧ (prepare_chunk c7State 2 ⟨["music_a.mp3"], [], false, false⟩ true true true).1.files
          = c7State.files
      ∧ (prepare_chunk c7State 2 ⟨["music_a.mp3"], [], false, false⟩ true true true).1.error_log
          = pushError c7State.error_log ("Failed to collect tracks for chunk " ++ toString 2)) :=
  ⟨rfl, c7_collection_failure_amended c7State 2 ⟨["music_a.mp3"], [], false, false⟩ true true true
    (Or.inr (Or.inr (Or.inr rfl)))⟩

/-! ### C2 -/

/-- Updating one task to a phase other than mixingFinal preserves the
at-most-one-final invariant. -/
theorem update_preserves_single_final {n : Nat} (f : Fin n → TaskPhase)
    (k : Fin n) (v : TaskPhase) (hv : v ≠ TaskPhase.mixingFinal)
    (ih : ∀ i j, f i = .mixingFinal → f j = .mixingFinal → i = j) :
    ∀ i j, Function.update f k v i = .mixingFinal →
      Function.update f k v j = .mixingFinal → i = j := by
  intro i j hi hj
  by_cases hik : i = k
  · subst hik
    rw [Function.update_same] at hi
    exact absurd hi hv
  · rw [Function.update_noteq hik] at hi
    by_cases hjk : j = k
    · subst hjk
      rw [Function.update_same] at hj
      exact absurd hj hv
    · rw [Function.update_noteq hjk] at hj
      exact ih i j hi hj

/-- C2: in every reachable configuration of the pipelines against
LUFS_LOCK, (1) at most one task is executing a final (LUFS) mix at any
instant, process-wide, regardless of the number of workers; (2) a task
waiting to acquire the lock can always enter as soon as no task holds it
(acquisition blocks but never fails — there is no timeout or failure
transition); and (3)-(4) the immediate- and quick-mix transitions are
enabled with no premise about the lock, so those tiers run concurrently
with each other and with a final mix. -/
theorem c2_final_mix_serialized {n : Nat} (s : LufsSys n) (h : Reachable s) :
    (∀ i j : Fin n, s.tasks i = .mixingFinal → s.tasks j = .mixingFinal → i = j)
    ∧ (∀ i : Fin n, s.tasks i = .waitingLufs →
        (∀ j, s.tasks j ≠ .mixingFinal) →
        LufsStep s ⟨Function.update s.tasks i .mixingFinal⟩)
    ∧ (∀ i : Fin n, s.tasks i = .idle →
        LufsStep s ⟨Function.update s.tasks i .mixingImmediate⟩)
    ∧ (∀ i : Fin n, s.tasks i = .mixingImmediate →
        LufsStep s ⟨Function.update s.tasks i .mixingQuick⟩) := by
  refine ⟨?_, fun i hi hfree => LufsStep.acquireLufs s i hi hfree,
          fun i hi => LufsStep.startImmediate s i hi,
          fun i hi => LufsStep.startQuick s i hi⟩
  unfold Reachable at h
  induction h with
  | refl =>
      intro i j hi _
      exact absurd hi (by simp [initSys])
  | @tail b c hr hstep ih =>
      cases hstep with
      | startImmediate k hk =>
          exact update_preserves_single_final b.tasks k _ (by simp) ih
      | startQuick k hk =>
          exact update_preserves_single_final b.tasks k _ (by simp) ih
      | requestFinal k hk =>
          exact update_preserves_single_final b.tasks k _ (by simp) ih
      | skipFinal k hk =>
          exact update_preserves_single_final b.tasks k _ (by simp) ih
      | acquireLufs k hk hfree =>
          intro i j hi hj
          by_cases hik : i = k
          · by_cases hjk : j = k
            · rw [hik, hjk]
            · rw [show (⟨Function.update b.tasks k .mixingFinal⟩ : LufsSys n).tasks j
                    = Function.update b.tasks k .mixingFinal j from rfl,
                  Function.update_noteq hjk] at hj
              exact absurd hj (hfree j)
          · rw [show (⟨Function.update b.tasks k .mixingFinal⟩ : LufsSys n).tasks i
                    = Function.update b.tasks k .mixingFinal i from rfl,
                Function.update_noteq hik] at hi
            exact absurd hi (hfree i)
      | releaseLufs k hk =>
          exact update_preserves_single_final b.tasks k _ (by simp) ih

theorem c2_final_mix_serialized_witness :
    (∀ i j : Fin 2, (initSys 2).tasks i = .mixingFinal →
        (initSys 2).tasks j = .mixingFinal → i = j)
    ∧ (∀ i : Fin 2, (initSys 2).tasks i = .idle →
        LufsStep (initSys 2) ⟨Function.update (initSys 2).tasks i .mixingImmediate⟩) :=
  ⟨(c2_final_mix_serialized (initSys 2) Relation.ReflTransGen.refl).1,
   (c2_final_mix_serialized (initSys 2) Relation.ReflTransGen.refl).2.2.1⟩

/-! ### Helper lemmas about the swap protocol and observations -/

theorem replaceFirst_of_forall_ne (l : List ChunkInfo) (oldP : String)
    (c : ChunkInfo) (h : ∀ x ∈ l, x.path ≠ oldP) :
    replaceFirst l oldP c = l := by
  induction l with
  | nil => rfl
  | cons a as ih =>
      rw [replaceFirst, if_neg (h a (List.mem_cons_self a as))]
      rw [ih (fun x hx => h x (List.mem_cons_of_mem a hx))]

theorem replaceFirst_append (l1 : List ChunkInfo) (e : ChunkInfo)
    (l2 : List ChunkInfo) (oldP : String) (c : ChunkInfo)
    (he : e.path = oldP) (hl1 : ∀ x ∈ l1, x.path ≠ oldP) :
    replaceFirst (l1 ++ e :: l2) oldP c = l1 ++ c :: l2 := by
  induction l1 with
  | nil => simp [replaceFirst, he]
  | cons a as ih =>
      rw [List.cons_append, replaceFirst,
        if_neg (hl1 a (List.mem_cons_self a as)), List.cons_append,
        ih (fun x hx => hl1 x (List.mem_cons_of_mem a hx))]

theorem mem_replaceFirst (l : List ChunkInfo) (oldP : String) (c : ChunkInfo)
    (x : ChunkInfo) (hx : x ∈ replaceFirst l oldP c) : x ∈ l ∨ x = c := by
  induction l with
  | nil => exact absurd hx (by simp [replaceFirst])
  | cons a as ih =>
      rw [replaceFirst] at hx
      by_cases ha : a.path = oldP
      · rw [if_pos ha] at hx
        rcases List.mem_cons.mp hx with h | h
        · exact Or.inr h
        · exact Or.inl (List.mem_cons_of_mem a h)
      · rw [if_neg ha] at hx
        rcases List.mem_cons.mp hx with h | h
        · exact Or.inl (h ▸ List.mem_cons_self a as)
        · rcases ih h with h2 | h2
          · exact Or.inl (List.mem_cons_of_mem a h2)
          · exact Or.inr h2

theorem find?_path_append (l1 : List ChunkInfo) (e : ChunkInfo)
    (l2 : List ChunkInfo) (live : String) (he : e.path = live)
    (hl1 : ∀ x ∈ l1, x.path ≠ live) :
    List.find? (fun c => c.path = live) (l1 ++ e :: l2) = some e := by
  induction l1 with
  | nil =>
      rw [List.nil_append]
      exact List.find?_cons_of_pos _ (by simp [he])
  | cons a as ih =>
      rw [List.cons_append,
        List.find?_cons_of_neg _ (by simp [hl1 a (List.mem_cons_self a as)])]
      exact ih (fun x hx => hl1 x (List.mem_cons_of_mem a hx))

theorem obsQ_of_current (st : WorkerState) (live : String)
    (h : st.current_chunk_path = some live) :
    obsQ st live = st.current_chunk_quality := by
  simp [obsQ, h]

theorem obsQ_of_buffer (st : WorkerState) (live : String)
    (hcur : st.current_chunk_path ≠ some live)
    (l1 : List ChunkInfo) (e : ChunkInfo) (l2 : List ChunkInfo)
    (hb : st.preloaded_chunks = l1 ++ e :: l2) (he : e.path = live)
    (hl1 : ∀ x ∈ l1, x.path ≠ live) :
    obsQ st live = e.quality := by
  unfold obsQ
  rw [if_neg hcur, hb, find?_path_append l1 e l2 live he hl1]

theorem obsQ_eq_of (st st' : WorkerState) (live : String)
    (h1 : st'.current_chunk_path = st.current_chunk_path)
    (h2 : st'.current_chunk_quality = st.current_chunk_quality)
    (h3 : st'.preloaded_chunks = st.preloaded_chunks) :
    obsQ st' live = obsQ st live := by
  unfold obsQ
  rw [h1, h2, h3]

theorem applySwap_current_pos (st : WorkerState) (oldP newP : String)
    (q : Quality) (idx : Nat) (h : st.current_chunk_path = some oldP) :
    (applySwap st oldP newP q idx).current_chunk_path = some newP
    ∧ (applySwap st oldP newP q idx).current_chunk_quality = q := by
  simp [applySwap, if_pos h]

theorem applySwap_current_neg (st : WorkerState) (oldP newP : String)
    (q : Quality) (idx : Nat) (h : st.current_chunk_path ≠ some oldP) :
    (applySwap st oldP newP q idx).current_chunk_path = st.current_chunk_path
    ∧ (applySwap st oldP newP q idx).current_chunk_quality
        = st.current_chunk_quality := by
  simp [applySwap, if_neg h]

theorem applySwap_preloaded (st : WorkerState) (oldP newP : String)
    (q : Quality) (idx : Nat) :
    (applySwap st oldP newP q idx).preloaded_chunks
      = replaceFirst st.preloaded_chunks oldP ⟨newP, q, idx⟩ := by
  unfold applySwap
  split <;> rfl

theorem applySwap_lufs (st : WorkerState) (oldP newP : String)
    (q : Quality) (idx : Nat) :
    (applySwap st oldP newP q idx).lufs_in_progress = st.lufs_in_progress := by
  unfold applySwap
  split <;> rfl

theorem applySwap_error_log (st : WorkerState) (oldP newP : String)
    (q : Quality) (idx : Nat) :
    (applySwap st oldP newP q idx).error_log = st.error_log := by
  unfold applySwap
  split <;> rfl

theorem applySwap_syslog (st : WorkerState) (oldP newP : String)
    (q : Quality) (idx : Nat) :
    (applySwap st oldP newP q idx).syslog = st.syslog := by
  unfold applySwap
  split <;> rfl

theorem applySwap_files (st : WorkerState) (oldP newP : String)
    (q : Quality) (idx : Nat) :
    (applySwap st oldP newP q idx).files = st.files.erase oldP := by
  unfold applySwap
  split <;> rfl

/-- After a replace-and-delete swap, the chunk data reachable through the
new path has exactly the new quality, provided the new file is fresh (not
yet referenced anywhere) and the superseded file was referenced either by
the current slot or by a buffer entry. -/
theorem applySwap_obs (st : WorkerState) (oldP newP : String) (q : Quality)
    (idx : Nat) (hnew : st.current_chunk_path ≠ some newP)
    (hbufnew : ∀ x ∈ st.preloaded_chunks, x.path ≠ newP)
    (hloc : st.current_chunk_path = some oldP ∨
        ∃ l1 e l2, st.preloaded_chunks = l1 ++ e :: l2 ∧ e.path = oldP ∧
          ∀ x ∈ l1, x.path ≠ oldP) :
    obsQ (applySwap st oldP newP q idx) newP = q := by
  by_cases hcur : st.current_chunk_path = some oldP
  · have h1 := applySwap_current_pos st oldP newP q idx hcur
    rw [obsQ_of_current _ _ h1.1]
    exact h1.2
  · rcases hloc with h | ⟨l1, e, l2, hb, he, hl1⟩
    · exact absurd h hcur
    · have hcur2 := applySwap_current_neg st oldP newP q idx hcur
      have hpre : (applySwap st oldP newP q idx).preloaded_chunks
          = l1 ++ (⟨newP, q, idx⟩ : ChunkInfo) :: l2 := by
        rw [applySwap_preloaded, hb, replaceFirst_append l1 e l2 oldP _ he hl1]
      exact obsQ_of_buffer _ newP (by rw [hcur2.1]; exact hnew)
        l1 ⟨newP, q, idx⟩ l2 hpre rfl
        (fun x hx => hbufnew x (by rw [hb]; exact List.mem_append_left _ hx))

theorem prepare_final_mix_keeps_chunk_refs (st : WorkerState) (index : Nat)
    (fo : FfmpegOutcome) :
    (prepare_final_mix st index fo).1.current_chunk_path = st.current_chunk_path
    ∧ (prepare_final_mix st index fo).1.current_chunk_quality
        = st.current_chunk_quality
    ∧ (prepare_final_mix st index fo).1.preloaded_chunks = st.preloaded_chunks := by
  cases fo <;> exact ⟨rfl, rfl, rfl⟩

theorem prepare_final_mix_snd (st : WorkerState) (index : Nat) :
    ∀ fo : FfmpegOutcome,
      (prepare_final_mix st index fo).2 =
        (if fo = .success then some (final_path_name index) else none) := by
  intro fo
  cases fo <;> rfl

theorem quick_ne_final_path (i : Nat) :
    quick_path_name i ≠ final_path_name i := by
  intro h
  have hlen := congrArg String.length h
  rw [quick_path_name, final_path_name, String.length_append,
    String.length_append] at hlen
  have h1 : ("_quick.mp3" : String).length = 10 := rfl
  have h2 : (".mp3" : String).length = 4 := rfl
  rw [h1, h2] at hlen
  omega

theorem imm_ne_quick_path (i : Nat) :
    immediate_path_name i ≠ quick_path_name i := by
  intro h
  have hlen := congrArg String.length h
  rw [immediate_path_name, quick_path_name, String.length_append,
    String.length_append] at hlen
  have h1 : ("_immediate.mp3" : String).length = 14 := rfl
  have h2 : ("_quick.mp3" : String).length = 10 := rfl
  rw [h1, h2] at hlen
  omega

theorem mem_foldl_erase (a : String) (temps : List String) (s : Finset String)
    (ha : a ∈ s) (hnot : a ∉ temps) :
    a ∈ temps.foldl (fun acc t => acc.erase t) s := by
  induction temps generalizing s with
  | nil => simpa using ha
  | cons t ts ih =>
      rw [List.foldl_cons]
      exact ih (s.erase t)
        (Finset.mem_erase.mpr
          ⟨fun h => hnot (h ▸ List.mem_cons_self t ts), ha⟩)
        (fun h => hnot (List.mem_cons_of_mem t h))

/-! ### C6 -/

/-- C6: before attempting the final tier the worker reads the per-session
count of final mixes in flight (under the session lock, modelled as the
atomic read of `lufs_in_progress.card` after the quick swap); if that count
is at or above 2 the final tier is skipped entirely — the upgrade task
never calls the final mix, the chunk remains observable at quick quality,
the capacity-skip message is logged to the operational log, and no entry is
added to the error log; if the count is below 2 the final mix is
attempted. -/
theorem c6_soft_capacity_cap (st : WorkerState) (index : Nat)
    (fo : FfmpegOutcome) (temps : List String)
    (hqcur : st.current_chunk_path ≠ some (quick_path_name index))
    (hqbuf : ∀ x ∈ st.preloaded_chunks, x.path ≠ quick_path_name index)
    (hloc : st.current_chunk_path = some (immediate_path_name index) ∨
        ∃ l1 e l2, st.preloaded_chunks = l1 ++ e :: l2
          ∧ e.path = immediate_path_name index
          ∧ ∀ x ∈ l1, x.path ≠ immediate_path_name index) :
    (2 ≤ st.lufs_in_progress.card →
        (upgrade_pipeline st index true fo temps).2 = false
        ∧ (upgrade_pipeline st index true fo temps).1.error_log = st.error_log
        ∧ capacitySkipMsg index st.lufs_in_progress.card
            ∈ (upgrade_pipeline st index true fo temps).1.syslog
        ∧ obsQ (upgrade_pipeline st index true fo temps).1 (quick_path_name index)
            = .quick)
    ∧ (st.lufs_in_progress.card < 2 →
        (upgrade_pipeline st index true fo temps).2 = true) := by
  have hcard : (applySwap { st with files := insert (quick_path_name index) st.files }
      (immediate_path_name index) (quick_path_name index) .quick index).lufs_in_progress.card
      = st.lufs_in_progress.card := by
    rw [applySwap_lufs]
  have hpipe : upgrade_pipeline st index true fo temps =
      (let stQ := applySwap { st with files := insert (quick_path_name index) st.files }
          (immediate_path_name index) (quick_path_name index) .quick index
       if 2 ≤ stQ.lufs_in_progress.card then
         (cleanupTemps
           { stQ with syslog := stQ.syslog ++ [capacitySkipMsg index stQ.lufs_in_progress.card] }
           temps, false)
       else
         match prepare_final_mix { stQ with syslog := stQ.syslog ++ [startFinalMsg index] }
             index fo with
         | (stF, none) => (cleanupTemps stF temps, true)
         | (stF, some fp) =>
             (cleanupTemps (applySwap stF (quick_path_name index) fp .final index) temps,
              true)) := rfl
  constructor
  · intro h2
    rw [hpipe]
    simp only []
    rw [if_pos (by rw [hcard]; exact h2)]
    refine ⟨rfl, ?_, ?_, ?_⟩
    · show (applySwap { st with files := insert (quick_path_name index) st.files }
        (immediate_path_name index) (quick_path_name index) .quick index).error_log
          = st.error_log
      rw [applySwap_error_log]
    · show capacitySkipMsg index st.lufs_in_progress.card ∈
        (applySwap { st with files := insert (quick_path_name index) st.files }
          (immediate_path_name index) (quick_path_name index) .quick index).syslog
        ++ [capacitySkipMsg index
            (applySwap { st with files := insert (quick_path_name index) st.files }
              (immediate_path_name index) (quick_path_name index) .quick index).lufs_in_progress.card]
      rw [hcard]
      exact List.mem_append_right _ (List.mem_singleton.mpr rfl)
    · have hobs : obsQ (applySwap { st with files := insert (quick_path_name index) st.files }
          (immediate_path_name index) (quick_path_name index) .quick index)
          (quick_path_name index) = .quick := by
        exact applySwap_obs _ _ _ _ _ hqcur hqbuf hloc
      exact hobs
  · intro hlt
    rw [hpipe]
    simp only []
    rw [if_neg (by rw [hcard]; omega)]
    cases fo <;> rfl

theorem c6_soft_capacity_cap_witness :
    2 ≤ c6State.lufs_in_progress.card ∧
    ((upgrade_pipeline c6State 1 true .success []).2 = false
      ∧ (upgrade_pipeline c6State 1 true .success []).1.error_log = c6State.error_log
      ∧ capacitySkipMsg 1 c6State.lufs_in_progress.card
          ∈ (upgrade_pipeline c6State 1 true .success []).1.syslog
      ∧ obsQ (upgrade_pipeline c6State 1 true .success []).1 (quick_path_name 1)
          = .quick) :=
  ⟨by decide,
   (c6_soft_capacity_cap c6State 1 .success [] (by decide) (by decide)
      (Or.inl rfl)).1 (by decide)⟩

/-! ### Helper lemma for three-element chains -/

theorem chain3 {R : Quality → Quality → Prop} {a b c : Quality}
    (h1 : R a b) (h2 : R b c) : List.Chain' R [a, b, c] :=
  List.Chain.cons h1 (List.Chain.cons h2 List.Chain.nil)

/-! ### C1 -/

/-- C1: for a chunk that has become observable at immediate quality (the
descriptor returned by `prepare_chunk`, held either in the current slot or
in the lookahead buffer), one run of the detached upgrade pipeline produces
a non-decreasing sequence of observed tiers that starts at immediate and
moves up by at most one rank per step — immediate then quick then final,
never skipping immediate and never regressing.  A failed quick mix leaves
the trace at [immediate, immediate, immediate] and does not invalidate the
already-returned immediate result (its file survives the pipeline's
cleanup); a successful quick mix followed by a capacity skip or by a failed
final mix yields [immediate, quick, quick], the chunk staying at its last
successfully reached tier; a fully successful run yields
[immediate, quick, final].  Each successful upgrade replaces, under the
session lock, whichever record (current slot or lookahead buffer entry)
still references the superseded file.  The freshness hypotheses say the
chunk's quick and final file names are not yet referenced anywhere, and
`hloc` says exactly one record references the immediate file. -/
theorem c1_tier_monotonicity (st : WorkerState) (index : Nat) (quickOk : Bool)
    (fo : FfmpegOutcome) (temps : List String)
    (hipfile : immediate_path_name index ∈ st.files)
    (hiptemps : immediate_path_name index ∉ temps)
    (hqcur : st.current_chunk_path ≠ some (quick_path_name index))
    (hqbuf : ∀ x ∈ st.preloaded_chunks, x.path ≠ quick_path_name index)
    (hfcur : st.current_chunk_path ≠ some (final_path_name index))
    (hfbuf : ∀ x ∈ st.preloaded_chunks, x.path ≠ final_path_name index)
    (hloc : (st.current_chunk_path = some (immediate_path_name index)
              ∧ st.current_chunk_quality = .immediate)
        ∨ (st.current_chunk_path ≠ some (immediate_path_name index)
            ∧ ∃ l1 l2, st.preloaded_chunks
                = l1 ++ (⟨immediate_path_name index, .immediate, index⟩ : ChunkInfo) :: l2
              ∧ ∀ x ∈ l1, x.path ≠ immediate_path_name index)) :
    (qualityTrace st index quickOk fo).head? = some .immediate
    ∧ List.Chain' stepUp (qualityTrace st index quickOk fo)
    ∧ (quickOk = false →
        qualityTrace st index quickOk fo = [.immediate, .immediate, .immediate]
        ∧ obsQ (upgrade_pipeline st index quickOk fo temps).1 (immediate_path_name index)
            = .immediate
        ∧ immediate_path_name index ∈ (upgrade_pipeline st index quickOk fo temps).1.files)
    ∧ (quickOk = true → 2 ≤ st.lufs_in_progress.card ∨ fo ≠ .success →
        qualityTrace st index quickOk fo = [.immediate, .quick, .quick]
        ∧ obsQ (upgrade_pipeline st index quickOk fo temps).1 (quick_path_name index)
            = .quick)
    ∧ (quickOk = true → st.lufs_in_progress.card < 2 → fo = .success →
        qualityTrace st index quickOk fo = [.immediate, .quick, .final]
        ∧ obsQ (upgrade_pipeline st index quickOk fo temps).1 (final_path_name index)
            = .final) := by
  have obs0 : obsQ st (immediate_path_name index) = .immediate := by
    rcases hloc with ⟨h1, h2⟩ | ⟨hne, l1, l2, hb, hl1⟩
    · rw [obsQ_of_current st _ h1]
      exact h2
    · exact obsQ_of_buffer st _ hne l1 _ l2 hb rfl hl1
  cases quickOk with
  | false =>
      have htrF : qualityTrace st index false fo =
          [obsQ st (immediate_path_name index),
           obsQ { st with error_log := pushError st.error_log "Quick mix failed" }
             (immediate_path_name index),
           obsQ { st with error_log := pushError st.error_log "Quick mix failed" }
             (immediate_path_name index)] := rfl
      have hoE : obsQ { st with error_log := pushError st.error_log "Quick mix failed" }
          (immediate_path_name index) = obsQ st (immediate_path_name index) :=
        obsQ_eq_of st _ _ rfl rfl rfl
      have htrF2 : qualityTrace st index false fo = [.immediate, .immediate, .immediate] := by
        rw [htrF, hoE, obs0]
      have hpipeF : upgrade_pipeline st index false fo temps =
          (cleanupTemps { st with error_log := pushError st.error_log "Quick mix failed" }
            temps, false) := rfl
      have hobsF : obsQ (upgrade_pipeline st index false fo temps).1
          (immediate_path_name index) = .immediate :=
        (obsQ_eq_of st _ _ rfl rfl rfl).trans obs0
      have hfileF : immediate_path_name index
          ∈ (upgrade_pipeline st index false fo temps).1.files :=
        mem_foldl_erase _ temps st.files hipfile hiptemps
      refine ⟨by rw [htrF2]; rfl, by rw [htrF2]; exact chain3 (by decide) (by decide),
        fun _ => ⟨htrF2, hobsF, hfileF⟩,
        fun h => absurd h (by decide), fun h => absurd h (by decide)⟩
  | true =>
      have hlocS : (postQuickFiles st index).current_chunk_path
            = some (immediate_path_name index) ∨
          ∃ l1 e l2, (postQuickFiles st index).preloaded_chunks = l1 ++ e :: l2
            ∧ e.path = immediate_path_name index
            ∧ ∀ x ∈ l1, x.path ≠ immediate_path_name index := by
        rcases hloc with ⟨h1, _⟩ | ⟨_, l1, l2, hb, hl1⟩
        · exact Or.inl h1
        · exact Or.inr ⟨l1, _, l2, hb, rfl, hl1⟩
      have hobs1 : obsQ (stateAfterQuickSwap st index) (quick_path_name index) = .quick :=
        applySwap_obs (postQuickFiles st index) _ _ _ _ hqcur hqbuf hlocS
      have hcard : (stateAfterQuickSwap st index).lufs_in_progress.card
          = st.lufs_in_progress.card := by
        rw [stateAfterQuickSwap, applySwap_lufs]
        rfl
      have hQpre : (stateAfterQuickSwap st index).preloaded_chunks
          = replaceFirst st.preloaded_chunks (immediate_path_name index)
              ⟨quick_path_name index, .quick, index⟩ := by
        rw [stateAfterQuickSwap, applySwap_preloaded]
        rfl
      have hbufF : ∀ x ∈ (stateAfterQuickSwap st index).preloaded_chunks,
          x.path ≠ final_path_name index := by
        intro x hx
        rw [hQpre] at hx
        rcases mem_replaceFirst _ _ _ x hx with h | h
        · exact hfbuf x h
        · rw [h]
          exact quick_ne_final_path index
      have hnewF : (stateAfterQuickSwap st index).current_chunk_path
          ≠ some (final_path_name index) := by
        by_cases hci : st.current_chunk_path = some (immediate_path_name index)
        · rw [stateAfterQuickSwap, (applySwap_current_pos (postQuickFiles st index) _ _ _ _ hci).1]
          intro h
          exact quick_ne_final_path index (Option.some.inj h)
        · rw [stateAfterQuickSwap, (applySwap_current_neg (postQuickFiles st index) _ _ _ _ hci).1]
          exact hfcur
      have hlocF : (stateAfterQuickSwap st index).current_chunk_path
            = some (quick_path_name index) ∨
          ∃ l1 e l2, (stateAfterQuickSwap st index).preloaded_chunks = l1 ++ e :: l2
            ∧ e.path = quick_path_name index
            ∧ ∀ x ∈ l1, x.path ≠ quick_path_name index := by
        by_cases hci : st.current_chunk_path = some (immediate_path_name index)
        · exact Or.inl
            (by rw [stateAfterQuickSwap, (applySwap_current_pos (postQuickFiles st index) _ _ _ _ hci).1])
        · rcases hloc with ⟨h1, _⟩ | ⟨_, l1, l2, hb, hl1⟩
          · exact absurd h1 hci
          · refine Or.inr ⟨l1, ⟨quick_path_name index, .quick, index⟩, l2, ?_, rfl, ?_⟩
            · rw [hQpre, hb]
              exact replaceFirst_append l1 _ l2 _ _ rfl hl1
            · intro x hx
              exact hqbuf x (by rw [hb]; exact List.mem_append_left _ hx)
      have hswap_final : ∀ s2 : WorkerState,
          s2.current_chunk_path = (stateAfterQuickSwap st index).current_chunk_path →
          s2.preloaded_chunks = (stateAfterQuickSwap st index).preloaded_chunks →
          obsQ (applySwap s2 (quick_path_name index) (final_path_name index) .final index)
            (final_path_name index) = .final := by
        intro s2 h1 h3
        apply applySwap_obs
        · rw [h1]
          exact hnewF
        · intro x hx
          rw [h3] at hx
          exact hbufF x hx
        · rcases hlocF with h | ⟨l1, e, l2, hb, he, hl1⟩
          · exact Or.inl (by rw [h1]; exact h)
          · exact Or.inr ⟨l1, e, l2, by rw [h3]; exact hb, he, hl1⟩
      by_cases h2 : 2 ≤ (stateAfterQuickSwap st index).lufs_in_progress.card
      · have htr : qualityTrace st index true fo =
            [obsQ st (immediate_path_name index),
             obsQ (stateAfterQuickSwap st index) (quick_path_name index),
             obsQ (stateAfterQuickSwap st index) (quick_path_name index)] := by
          have hch : qualityTrace st index true fo =
              (if 2 ≤ (stateAfterQuickSwap st index).lufs_in_progress.card then
                [obsQ st (immediate_path_name index),
                 obsQ (stateAfterQuickSwap st index) (quick_path_name index),
                 obsQ (stateAfterQuickSwap st index) (quick_path_name index)]
              else
                match prepare_final_mix (stateAfterQuickSwap st index) index fo with
                | (stF, none) =>
                    [obsQ st (immediate_path_name index),
                     obsQ (stateAfterQuickSwap st index) (quick_path_name index),
                     obsQ stF (quick_path_name index)]
                | (stF, some fp) =>
                    [obsQ st (immediate_path_name index),
                     obsQ (stateAfterQuickSwap st index) (quick_path_name index),
                     obsQ (applySwap stF (quick_path_name index) fp .final index) fp]) := rfl
          rw [hch, if_pos h2]
        have hpipe : upgrade_pipeline st index true fo temps =
            (if 2 ≤ (stateAfterQuickSwap st index).lufs_in_progress.card then
              (cleanupTemps
                { stateAfterQuickSwap st index with
                    syslog := (stateAfterQuickSwap st index).syslog
                      ++ [capacitySkipMsg index
                          (stateAfterQuickSwap st index).lufs_in_progress.card] }
                temps, false)
            else
              match prepare_final_mix
                  { stateAfterQuickSwap st index with
                      syslog := (stateAfterQuickSwap st index).syslog
                        ++ [startFinalMsg index] }
                  index fo with
              | (stF, none) => (cleanupTemps stF temps, true)
              | (stF, some fp) =>
                  (cleanupTemps (applySwap stF (quick_path_name index) fp .final index)
                    temps, true)) := rfl
        have hobsP : obsQ (upgrade_pipeline st index true fo temps).1
            (quick_path_name index) = .quick := by
          rw [hpipe, if_pos h2]
          exact (obsQ_eq_of (stateAfterQuickSwap st index) _ _ rfl rfl rfl).trans hobs1
        have htr2 : qualityTrace st index true fo = [.immediate, .quick, .quick] := by
          rw [htr, obs0, hobs1]
        exact ⟨by rw [htr2]; rfl, by rw [htr2]; exact chain3 (by decide) (by decide),
          fun h => absurd h (by decide),
          fun _ _ => ⟨htr2, hobsP⟩,
          fun _ hlt _ => absurd (hcard ▸ h2) (by omega)⟩
      · have h2s : ¬ 2 ≤ st.lufs_in_progress.card := by
          rw [← hcard]
          exact h2
        cases fo with
        | success =>
            have htr : qualityTrace st index true .success =
                [obsQ st (immediate_path_name index),
                 obsQ (stateAfterQuickSwap st index) (quick_path_name index),
                 obsQ (applySwap
                     (prepare_final_mix (stateAfterQuickSwap st index) index .success).1
                     (quick_path_name index) (final_path_name index) .final index)
                   (final_path_name index)] := by
              have hch : qualityTrace st index true .success =
                  (if 2 ≤ (stateAfterQuickSwap st index).lufs_in_progress.card then
                    [obsQ st (immediate_path_name index),
                     obsQ (stateAfterQuickSwap st index) (quick_path_name index),
                     obsQ (stateAfterQuickSwap st index) (quick_path_name index)]
                  else
                    match prepare_final_mix (stateAfterQuickSwap st index) index .success with
                    | (stF, none) =>
                        [obsQ st (immediate_path_name index),
                         obsQ (stateAfterQuickSwap st index) (quick_path_name index),
                         obsQ stF (quick_path_name index)]
                    | (stF, some fp) =>
                        [obsQ st (immediate_path_name index),
                         obsQ (stateAfterQuickSwap st index) (quick_path_name index),
                         obsQ (applySwap stF (quick_path_name index) fp .final index) fp]) := rfl
              rw [hch, if_neg h2]
              rfl
            have hobsFin : obsQ (applySwap
                (prepare_final_mix (stateAfterQuickSwap st index) index .success).1
                (quick_path_name index) (final_path_name index) .final index)
                (final_path_name index) = .final :=
              hswap_final _ (prepare_final_mix_keeps_chunk_refs _ _ _).1
                (prepare_final_mix_keeps_chunk_refs _ _ _).2.2
            have htr2 : qualityTrace st index true .success
                = [.immediate, .quick, .final] := by
              rw [htr, obs0, hobs1, hobsFin]
            have hpipe : upgrade_pipeline st index true .success temps =
                (if 2 ≤ (stateAfterQuickSwap st index).lufs_in_progress.card then
                  (cleanupTemps
                    { stateAfterQuickSwap st index with
                        syslog := (stateAfterQuickSwap st index).syslog
                          ++ [capacitySkipMsg index
                              (stateAfterQuickSwap st index).lufs_in_progress.card] }
                    temps, false)
                else
                  match prepare_final_mix
                      { stateAfterQuickSwap st index with
                          syslog := (stateAfterQuickSwap st index).syslog
                            ++ [startFinalMsg index] }
                      index .success with
                  | (stF, none) => (cleanupTemps stF temps, true)
                  | (stF, some fp) =>
                      (cleanupTemps (applySwap stF (quick_path_name index) fp .final index)
                        temps, true)) := rfl
            have hobsP : obsQ (upgrade_pipeline st index true .success temps).1
                (final_path_name index) = .final := by
              rw [hpipe, if_neg h2]
              exact (obsQ_eq_of
                (applySwap
                  (prepare_final_mix
                    { stateAfterQuickSwap st index with
                        syslog := (stateAfterQuickSwap st index).syslog
                          ++ [startFinalMsg index] }
                    index .success).1
                  (quick_path_name index) (final_path_name index) .final index)
                _ _ rfl rfl rfl).trans
                (hswap_final _ (prepare_final_mix_keeps_chunk_refs _ _ _).1
                  (prepare_final_mix_keeps_chunk_refs _ _ _).2.2)
            exact ⟨by rw [htr2]; rfl, by rw [htr2]; exact chain3 (by decide) (by decide),
              fun h => absurd h (by decide),
              fun _ hor => absurd (hor.resolve_right (fun hne => hne rfl)) h2s,
              fun _ _ _ => ⟨htr2, hobsP⟩⟩
        | failExit =>
            have htr : qualityTrace st index true .failExit =
                [obsQ st (immediate_path_name index),
                 obsQ (stateAfterQuickSwap st index) (quick_path_name index),
                 obsQ (prepare_final_mix (stateAfterQuickSwap st index) index .failExit).1
                   (quick_path_name index)] := by
              have hch : qualityTrace st index true .failExit =
                  (if 2 ≤ (stateAfterQuickSwap st index).lufs_in_progress.card then
                    [obsQ st (immediate_path_name index),
                     obsQ (stateAfterQuickSwap st index) (quick_path_name index),
                     obsQ (stateAfterQuickSwap st index) (quick_path_name index)]
                  else
                    match prepare_final_mix (stateAfterQuickSwap st index) index .failExit with
                    | (stF, none) =>
                        [obsQ st (immediate_path_name index),
                         obsQ (stateAfterQuickSwap st index) (quick_path_name index),
                         obsQ stF (quick_path_name index)]
                    | (stF, some fp) =>
                        [obsQ st (immediate_path_name index),
                         obsQ (stateAfterQuickSwap st index) (quick_path_name index),
                         obsQ (applySwap stF (quick_path_name index) fp .final index) fp]) := rfl
              rw [hch, if_neg h2]
              rfl
            have hobsF3 : obsQ (prepare_final_mix (stateAfterQuickSwap st index) index .failExit).1
                (quick_path_name index) = .quick :=
              (obsQ_eq_of (stateAfterQuickSwap st index) _ _
                (prepare_final_mix_keeps_chunk_refs _ _ _).1
                (prepare_final_mix_keeps_chunk_refs _ _ _).2.1
                (prepare_final_mix_keeps_chunk_refs _ _ _).2.2).trans hobs1
            have htr2 : qualityTrace st index true .failExit
                = [.immediate, .quick, .quick] := by
              rw [htr, obs0, hobs1, hobsF3]
            have hpipe : upgrade_pipeline st index true .failExit temps =
                (if 2 ≤ (stateAfterQuickSwap st index).lufs_in_progress.card then
                  (cleanupTemps
                    { stateAfterQuickSwap st index with
                        syslog := (stateAfterQuickSwap st index).syslog
                          ++ [capacitySkipMsg index
                              (stateAfterQuickSwap st index).lufs_in_progress.card] }
                    temps, false)
                else
                  match prepare_final_mix
                      { stateAfterQuickSwap st index with
                          syslog := (stateAfterQuickSwap st index).syslog
                            ++ [startFinalMsg index] }
                      index .failExit with
                  | (stF, none) => (cleanupTemps stF temps, true)
                  | (stF, some fp) =>
                      (cleanupTemps (applySwap stF (quick_path_name index) fp .final index)
                        temps, true)) := rfl
            have hobsP : obsQ (upgrade_pipeline st index true .failExit temps).1
                (quick_path_name index) = .quick := by
              rw [hpipe, if_neg h2]
              exact (obsQ_eq_of (stateAfterQuickSwap st index) _ _ rfl rfl rfl).trans hobs1
            exact ⟨by rw [htr2]; rfl, by rw [htr2]; exact chain3 (by decide) (by decide),
              fun h => absurd h (by decide),
              fun _ _ => ⟨htr2, hobsP⟩,
              fun _ _ hfo => absurd hfo (by decide)⟩
        | exn =>
            have htr : qualityTrace st index true .exn =
                [obsQ st (immediate_path_name index),
                 obsQ (stateAfterQuickSwap st index) (quick_path_name index),
                 obsQ (prepare_final_mix (stateAfterQuickSwap st index) index .exn).1
                   (quick_path_name index)] := by
              have hch : qualityTrace st index true .exn =
                  (if 2 ≤ (stateAfterQuickSwap st index).lufs_in_progress.card then
                    [obsQ st (immediate_path_name index),
                     obsQ (stateAfterQuickSwap st index) (quick_path_name index),
                     obsQ (stateAfterQuickSwap st index) (quick_path_name index)]
                  else
                    match prepare_final_mix (stateAfterQuickSwap st index) index .exn with
                    | (stF, none) =>
                        [obsQ st (immediate_path_name index),
                         obsQ (stateAfterQuickSwap st index) (quick_path_name index),
                         obsQ stF (quick_path_name index)]
                    | (stF, some fp) =>
                        [obsQ st (immediate_path_name index),
                         obsQ (stateAfterQuickSwap st index) (quick_path_name index),
                         obsQ (applySwap stF (quick_path_name index) fp .final index) fp]) := rfl
              rw [hch, if_neg h2]
              rfl
            have hobsF3 : obsQ (prepare_final_mix (stateAfterQuickSwap st index) index .exn).1
                (quick_path_name index) = .quick :=
              (obsQ_eq_of (stateAfterQuickSwap st index) _ _
                (prepare_final_mix_keeps_chunk_refs _ _ _).1
                (prepare_final_mix_keeps_chunk_refs _ _ _).2.1
                (prepare_final_mix_keeps_chunk_refs _ _ _).2.2).trans hobs1
            have htr2 : qualityTrace st index true .exn
                = [.immediate, .quick, .quick] := by
              rw [htr, obs0, hobs1, hobsF3]
            have hpipe : upgrade_pipeline st index true .exn temps =
                (if 2 ≤ (stateAfterQuickSwap st index).lufs_in_progress.card then
                  (cleanupTemps
                    { stateAfterQuickSwap st index with
                        syslog := (stateAfterQuickSwap st index).syslog
                          ++ [capacitySkipMsg index
                              (stateAfterQuickSwap st index).lufs_in_progress.card] }
                    temps, false)
                else
                  match prepare_final_mix
                      { stateAfterQuickSwap st index with
                          syslog := (stateAfterQuickSwap st index).syslog
                            ++ [startFinalMsg index] }
                      index .exn with
                  | (stF, none) => (cleanupTemps stF temps, true)
                  | (stF, some fp) =>
                      (cleanupTemps (applySwap stF (quick_path_name index) fp .final index)
                        temps, true)) := rfl
            have hobsP : obsQ (upgrade_pipeline st index true .exn temps).1
                (quick_path_name index) = .quick := by
              rw [hpipe, if_neg h2]
              exact (obsQ_eq_of (stateAfterQuickSwap st index) _ _ rfl rfl rfl).trans hobs1
            exact ⟨by rw [htr2]; rfl, by rw [htr2]; exact chain3 (by decide) (by decide),
              fun h => absurd h (by decide),
              fun _ _ => ⟨htr2, hobsP⟩,
              fun _ _ hfo => absurd hfo (by decide)⟩

theorem c1_tier_monotonicity_witness :
    immediate_path_name 1 ∈ c1State.files ∧
    (qualityTrace c1State 1 true .success = [.immediate, .quick, .final]
      ∧ obsQ (upgrade_pipeline c1State 1 true .success []).1 (final_path_name 1)
          = .final) :=
  ⟨by decide,
   (c1_tier_monotonicity c1State 1 true .success [] (by decide) (by decide)
      (by decide) (by decide) (by decide) (by decide)
      (Or.inl ⟨rfl, rfl⟩)).2.2.2.2 rfl (by decide) rfl⟩
